import Mathlib

namespace TeamWater

/-- JSON-like Python values as they occur in decoded API payloads and persisted
files. Numbers are modelled as integers: no claim depends on float rounding.
Python's cross-type numeric equality (1 == True) is not modelled; values are
compared structurally. -/
inductive Json where
  | null
  | bool (b : Bool)
  | num (n : Int)
  | str (s : String)
  | arr (xs : List Json)
  | obj (kvs : List (String × Json))

mutual

def Json.decEq : (a b : Json) → Decidable (a = b)
  | .null, .null => isTrue rfl
  | .null, .bool _ => isFalse (fun h => Json.noConfusion h)
  | .null, .num _ => isFalse (fun h => Json.noConfusion h)
  | .null, .str _ => isFalse (fun h => Json.noConfusion h)
  | .null, .arr _ => isFalse (fun h => Json.noConfusion h)
  | .null, .obj _ => isFalse (fun h => Json.noConfusion h)
  | .bool _, .null => isFalse (fun h => Json.noConfusion h)
  | .bool a, .bool b =>
    if h : a = b then isTrue (h ▸ rfl) else isFalse (fun c => h (Json.bool.inj c))
  | .bool _, .num _ => isFalse (fun h => Json.noConfusion h)
  | .bool _, .str _ => isFalse (fun h => Json.noConfusion h)
  | .bool _, .arr _ => isFalse (fun h => Json.noConfusion h)
  | .bool _, .obj _ => isFalse (fun h => Json.noConfusion h)
  | .num _, .null => isFalse (fun h => Json.noConfusion h)
  | .num _, .bool _ => isFalse (fun h => Json.noConfusion h)
  | .num a, .num b =>
    if h : a = b then isTrue (h ▸ rfl) else isFalse (fun c => h (Json.num.inj c))
  | .num _, .str _ => isFalse (fun h => Json.noConfusion h)
  | .num _, .arr _ => isFalse (fun h => Json.noConfusion h)
  | .num _, .obj _ => isFalse (fun h => Json.noConfusion h)
  | .str _, .null => isFalse (fun h => Json.noConfusion h)
  | .str _, .bool _ => isFalse (fun h => Json.noConfusion h)
  | .str _, .num _ => isFalse (fun h => Json.noConfusion h)
  | .str a, .str b =>
    if h : a = b then isTrue (h ▸ rfl) else isFalse (fun c => h (Json.str.inj c))
  | .str _, .arr _ => isFalse (fun h => Json.noConfusion h)
  | .str _, .obj _ => isFalse (fun h => Json.noConfusion h)
  | .arr _, .null => isFalse (fun h => Json.noConfusion h)
  | .arr _, .bool _ => isFalse (fun h => Json.noConfusion h)
  | .arr _, .num _ => isFalse (fun h => Json.noConfusion h)
  | .arr _, .str _ => isFalse (fun h => Json.noConfusion h)
  | .arr xs, .arr ys =>
    match Json.decEqL xs ys with
    | isTrue h => isTrue (h ▸ rfl)
    | isFalse h => isFalse (fun c => h (Json.arr.inj c))
  | .arr _, .obj _ => isFalse (fun h => Json.noConfusion h)
  | .obj _, .null => isFalse (fun h => Json.noConfusion h)
  | .obj _, .bool _ => isFalse (fun h => Json.noConfusion h)
  | .obj _, .num _ => isFalse (fun h => Json.noConfusion h)
  | .obj _, .str _ => isFalse (fun h => Json.noConfusion h)
  | .obj _, .arr _ => isFalse (fun h => Json.noConfusion h)
  | .obj xs, .obj ys =>
    match Json.decEqKV xs ys with
    | isTrue h => isTrue (h ▸ rfl)
    | isFalse h => isFalse (fun c => h (Json.obj.inj c))

def Json.decEqL : (xs ys : List Json) → Decidable (xs = ys)
  | [], [] => isTrue rfl
  | [], _ :: _ => isFalse (fun h => List.noConfusion h)
  | _ :: _, [] => isFalse (fun h => List.noConfusion h)
  | x :: xs, y :: ys =>
    match Json.decEq x y with
    | isFalse h1 => isFalse (fun c => by injection c with c1 c2; exact h1 c1)
    | isTrue h1 =>
      match Json.decEqL xs ys with
      | isTrue h2 => isTrue (by rw [h1, h2])
      | isFalse h2 => isFalse (fun c => by injection c with c1 c2; exact h2 c2)

def Json.decEqKV : (xs ys : List (String × Json)) → Decidable (xs = ys)
  | [], [] => isTrue rfl
  | [], _ :: _ => isFalse (fun h => List.noConfusion h)
  | _ :: _, [] => isFalse (fun h => List.noConfusion h)
  | (k1, v1) :: xs, (k2, v2) :: ys =>
    if hk : k1 = k2 then
      match Json.decEq v1 v2 with
      | isFalse h1 =>
        isFalse (fun c => by injection c with c1 c2; exact h1 (congrArg Prod.snd c1))
      | isTrue h1 =>
        match Json.decEqKV xs ys with
        | isTrue h2 => isTrue (by rw [hk, h1, h2])
        | isFalse h2 => isFalse (fun c => by injection c with c1 c2; exact h2 c2)
    else
      isFalse (fun c => by injection c with c1 c2; exact hk (congrArg Prod.fst c1))

end

instance : DecidableEq Json := Json.decEq

/-- Python truthiness of a decoded JSON value: None, False, 0, "", [], {} are falsy. -/
def Json.truthy : Json → Bool
  | .null => false
  | .bool b => b
  | .num n => n != 0
  | .str s => s != ""
  | .arr xs => !xs.isEmpty
  | .obj kvs => !kvs.isEmpty

/-- Raw donation payload: a Python dict decoded from JSON (an object). -/
structure RawEntry where
  kvs : List (String × Json)
deriving DecidableEq

/-- Python dict.get(k): the stored value, or None when the key is absent
(Python None and JSON null coincide after json.load). -/
def RawEntry.get (e : RawEntry) (k : String) : Json :=
  match e.kvs.lookup k with
  | some v => v
  | none => Json.null

/-- Python dict.get(k, d): the stored value, or the default d when absent. -/
def RawEntry.getD (e : RawEntry) (k : String) (d : Json) : Json :=
  match e.kvs.lookup k with
  | some v => v
  | none => d

/-- Donation record as written to donations.json. The projection in both
collectors builds a dict with these keys, every key present (a missing source
field stores Python None, i.e. JSON null, under the key rather than omitting
it). The recorded_at field exists only in the github_collector variant; the
collecter.py variant is modelled with recorded_at = none, a distinction no
code path reads. -/
structure DonationRecord where
  id : Json
  amount : Json
  completed_at : Json
  donor_name : Json
  donor_comment : Json
  currency : Json
  recorded_at : Option String
deriving DecidableEq

/-- Projection of a raw payload into a donation record, collecter.py
save_new_donations lines 97-104. -/
def projectRecord (d : RawEntry) : DonationRecord :=
  { id := d.get "id"
    amount := d.get "amount"
    completed_at := d.get "completed_at"
    donor_name := d.get "donor_name"
    donor_comment := d.get "donor_comment"
    currency := d.get "currency"
    recorded_at := none }

/-- Projection in github_collector.py update_donations lines 105-113: same
fields plus recorded_at stamped with the current UTC wall-clock time, passed
here as the parameter now. -/
def projectRecordGH (now : String) (d : RawEntry) : DonationRecord :=
  { projectRecord d with recorded_at := some now }

/-- Deduplicating merge loop shared by both collectors (collecter.py lines
92-108, github_collector.py lines 100-117): for each payload take its id via
dict.get; if the id is truthy and not in the known-id set, project the payload
and append the record to both the new-records list and the working ledger, and
add the id to the known set. The known set is modelled as a duplicate-free
list; membership is Python set membership (structural equality here). -/
def ingestLoop (proj : RawEntry → DonationRecord) :
    List RawEntry → List Json → List DonationRecord → List DonationRecord →
    List Json × List DonationRecord × List DonationRecord
  | [], known, newDs, existing => (known, newDs, existing)
  | d :: rest, known, newDs, existing =>
    let did := d.get "id"
    if did.truthy = true ∧ did ∉ known then
      let r := proj d
      ingestLoop proj rest (known ++ [did]) (newDs ++ [r]) (existing ++ [r])
    else
      ingestLoop proj rest known newDs existing

/-- Python comparison groups for sort keys: values of a uniform group compare
without error under < (strings lexicographically by code point, numbers
numerically; Python bool is an int). None and container values are modelled as
unorderable, which is exact for None and for mixed-type lists; comparisons
among lists themselves (orderable elementwise in Python) never arise in any
claim and are conservatively grouped as unorderable. -/
inductive KeyGroup where
  | strG
  | numG
deriving DecidableEq

def keyGroup : Json → Option KeyGroup
  | .str _ => some .strG
  | .num _ => some .numG
  | .bool _ => some .numG
  | _ => none

def keyNum : Json → Int
  | .num n => n
  | .bool b => bif b then 1 else 0
  | _ => 0

def keyStr : Json → String
  | .str s => s
  | _ => ""

/-- Lexicographic code-point comparison of character lists, the order Python
uses for str < str. -/
def charListLt : List Char → List Char → Bool
  | [], [] => false
  | [], _ :: _ => true
  | _ :: _, [] => false
  | c :: cs, d :: ds =>
    if c.toNat < d.toNat then true
    else if d.toNat < c.toNat then false
    else charListLt cs ds

/-- Strict Python < between two sort keys of the same group. -/
def keyLt (g : KeyGroup) (a b : Json) : Bool :=
  match g with
  | .strG => charListLt (keyStr a).toList (keyStr b).toList
  | .numG => decide (keyNum a < keyNum b)

/-- Sort key used by both collectors: x.get('completed_at', ''). Since every
record this program writes carries the completed_at key (possibly as null),
the '' default never applies and the stored value itself is the key. -/
def sortKey (r : DonationRecord) : Json := r.completed_at

/-- Insert a record into a descending-sorted list, after all records whose key
is not strictly smaller, so that equal-key records keep their original order. -/
def insertDescBy (lt : Json → Json → Bool) (r : DonationRecord) :
    List DonationRecord → List DonationRecord
  | [] => [r]
  | s :: rest =>
    if lt (sortKey s) (sortKey r) then r :: s :: rest
    else s :: insertDescBy lt r rest

/-- Stable descending sort by completed_at. Python list.sort is stable and
documents that reverse=True preserves stability, so any stable descending sort
computes the same list; modelled as left-to-right stable insertion. -/
def stableSortDesc (lt : Json → Json → Bool) (l : List DonationRecord) :
    List DonationRecord :=
  l.foldl (fun acc r => insertDescBy lt r acc) []

/-- Model of existing_donations.sort(key=lambda x: x.get('completed_at', ''),
reverse=True): Python 3 raises TypeError as soon as two keys of different
types (or two Nones) are compared, which for any list of two or more elements
happens exactly when the keys are not all of one comparable group; a list of
at most one element performs no comparison and never raises. -/
def sortDonations (l : List DonationRecord) : Except Unit (List DonationRecord) :=
  if l.length ≤ 1 then .ok l
  else
    match (l.map sortKey).head? >>= keyGroup with
    | some g =>
      if (l.map sortKey).all (fun k => keyGroup k = some g) then
        .ok (stableSortDesc (keyLt g) l)
      else .error ()
    | none => .error ()

inductive IngestOutcome where
  | ok (changed : Bool)
  | raised
deriving DecidableEq

/-- Result of one ingest call: the known-id set and donations-file content
after the call, the records appended during the call, and whether the call
returned a changed flag or propagated an exception (in which case the file
was not rewritten but the in-memory known-id set keeps its additions). -/
structure IngestResult where
  known : List Json
  ledger : List DonationRecord
  newRecords : List DonationRecord
  outcome : IngestOutcome
deriving DecidableEq

/-- collecter.py DonationMonitor.save_new_donations (lines 78-136), as a
function of the in-memory known-id set, the donations-file content, and the
fetched batch. An empty batch is falsy and returns False immediately; the
file is rewritten (sorted) only when new records were found; a TypeError from
the sort propagates, leaving the file unwritten. -/
def save_new_donations (known : List Json) (ledgerFile : List DonationRecord)
    (batch : List RawEntry) : IngestResult :=
  if batch.isEmpty then ⟨known, ledgerFile, [], .ok false⟩
  else
    let res := ingestLoop projectRecord batch known [] ledgerFile
    if res.2.1.isEmpty then ⟨res.1, ledgerFile, res.2.1, .ok false⟩
    else
      match sortDonations res.2.2 with
      | .ok sorted => ⟨res.1, sorted, res.2.1, .ok true⟩
      | .error _ => ⟨res.1, ledgerFile, res.2.1, .raised⟩

/-- github_collector.py GitHubDonationCollector.update_donations (lines
86-142): same merge, but the record projection stamps recorded_at with the
current time, and the save-and-return-True branch also fires when the
post-merge ledger is empty (if new_donations or not existing_donations). -/
def update_donations (now : String) (known : List Json)
    (ledgerFile : List DonationRecord) (batch : List RawEntry) : IngestResult :=
  if batch.isEmpty then ⟨known, ledgerFile, [], .ok false⟩
  else
    let res := ingestLoop (projectRecordGH now) batch known [] ledgerFile
    if res.2.1.isEmpty = false ∨ res.2.2.isEmpty then
      match sortDonations res.2.2 with
      | .ok sorted => ⟨res.1, sorted, res.2.1, .ok true⟩
      | .error _ => ⟨res.1, ledgerFile, res.2.1, .raised⟩
    else ⟨res.1, ledgerFile, res.2.1, .ok false⟩

instance {ε α : Type} [DecidableEq ε] [DecidableEq α] : DecidableEq (Except ε α) :=
  fun a b =>
    match a, b with
    | .ok x, .ok y =>
      if h : x = y then isTrue (h ▸ rfl) else isFalse (fun c => h (Except.ok.inj c))
    | .error x, .error y =>
      if h : x = y then isTrue (h ▸ rfl) else isFalse (fun c => h (Except.error.inj c))
    | .ok _, .error _ => isFalse (fun c => Except.noConfusion c)
    | .error _, .ok _ => isFalse (fun c => Except.noConfusion c)

/-- Python float() applied to a decoded JSON value, as in
float(total_data.get("total_raised", 0)). Numbers convert to themselves,
bools to 0/1; None and containers raise TypeError. Parsing of numeric
strings is conservatively modelled as a conversion failure — no claim
quantifies over string-typed totals, and every theorem that needs the
conversion to succeed hypothesises a numeric payload. -/
def pyFloat : Json → Except Unit Int
  | .num n => .ok n
  | .bool b => .ok (bif b then 1 else 0)
  | _ => .error ()

/-- Total-raised sample written by collecter.py save_total_raised_update:
amount and epoch-millisecond timestamp. -/
structure MonSample where
  amount : Int
  timestamp : Int
deriving DecidableEq

/-- Total-raised sample written by github_collector.py update_total_raised:
amount, epoch-millisecond timestamp, and an ISO last_updated mirror. -/
structure GHSample where
  amount : Int
  timestamp : Int
  last_updated : String
deriving DecidableEq

/-- collecter.py DonationMonitor.save_total_raised_update (lines 50-76):
appends one sample to the series and writes it back. There is no length cap
in this variant. The wall-clock timestamp is passed in as ts. -/
def save_total_raised_update (series : List MonSample) (total_data : RawEntry)
    (ts : Int) : Except Unit (List MonSample) := do
  let amount ← pyFloat (total_data.getD "total_raised" (Json.num 0))
  .ok (series ++ [⟨amount, ts⟩])

/-- Truncation in github_collector.py update_total_raised lines 76-77:
updates = updates[-100:] when more than 100 entries, keeping the newest. -/
def truncate100 (u : List GHSample) : List GHSample :=
  if 100 < u.length then u.drop (u.length - 100) else u

/-- github_collector.py GitHubDonationCollector.update_total_raised (lines
49-84): a falsy payload returns False without writing; otherwise one sample
is appended, the series truncated to the last 100 entries, written back, and
True returned. -/
def update_total_raised (series : List GHSample) (total_data : Option RawEntry)
    (ts : Int) (lu : String) : Except Unit (List GHSample × Bool) :=
  match total_data with
  | none => .ok (series, false)
  | some td =>
    if td.kvs.isEmpty then .ok (series, false)
    else do
      let amount ← pyFloat (td.getD "total_raised" (Json.num 0))
      .ok (truncate100 (series ++ [⟨amount, ts, lu⟩]), true)

/-- Total phase of one collecter.py monitor cycle (lines 172-178): the fresh
total is consulted only if the fetch succeeded with a truthy payload AND
ingestion found new donations; a sample is then appended (and last_total
updated) only when last_total is unset or the fresh reading differs from it.
A falsy fetch result is modelled as none or an empty dict. -/
def monitorTotalPhase (last_total : Option Int) (series : List MonSample)
    (new_found : Bool) (total_data : Option RawEntry) (ts : Int) :
    Except Unit (Option Int × List MonSample) :=
  match total_data with
  | none => .ok (last_total, series)
  | some td =>
    if td.kvs.isEmpty then .ok (last_total, series)
    else if new_found then do
      let cur ← pyFloat (td.getD "total_raised" (Json.num 0))
      if last_total = none ∨ some cur ≠ last_total then do
        let series' ← save_total_raised_update series td ts
        .ok (some cur, series')
      else .ok (last_total, series)
    else .ok (last_total, series)

/-- Result of one github_collector.py run_update cycle: the in-memory known-id
set and both persisted files afterwards, plus the overall success flag. -/
structure RunOutcome where
  known : List Json
  donFile : List DonationRecord
  totFile : List GHSample
  success : Bool
deriving DecidableEq

/-- github_collector.py GitHubDonationCollector.run_update (lines 144-185) as
a function of the two fetch results (none models a failed or falsy fetch).
A failed donations fetch fails the cycle before any write; an exception from
update_donations is caught by the surrounding except and fails the cycle; the
total phase runs regardless of whether ingestion changed anything, and
update_total_raised appends unconditionally on a successful total fetch. -/
def run_update (known : List Json) (donFile : List DonationRecord)
    (totFile : List GHSample) (donations : Option (List RawEntry))
    (total : Option RawEntry) (now : String) (ts : Int) (lu : String) :
    RunOutcome :=
  match donations with
  | none => ⟨known, donFile, totFile, false⟩
  | some ds =>
    if ds.isEmpty then ⟨known, donFile, totFile, false⟩
    else
      let r := update_donations now known donFile ds
      match r.outcome with
      | .raised => ⟨r.known, donFile, totFile, false⟩
      | .ok _ =>
        match total with
        | none => ⟨r.known, r.ledger, totFile, false⟩
        | some td =>
          if td.kvs.isEmpty then ⟨r.known, r.ledger, totFile, false⟩
          else
            match update_total_raised totFile (some td) ts lu with
            | .error _ => ⟨r.known, r.ledger, totFile, false⟩
            | .ok (tf, _) => ⟨r.known, r.ledger, tf, true⟩

/-- Observable outcome of the try block of one collecter.py monitor cycle
(lines 156-178) for the error-counter automaton:
donationsFail — get_donations caught a RequestException and returned None (or
the payload was falsy), so the body runs to completion without an exception
but the reset on line 163 is skipped;
donationsOk — a truthy batch was processed, executing the reset;
bodyRaise — an exception escaped the body (afterReset says whether the reset
on line 163 had already executed, i.e. whether it raised in the total phase
of a cycle with a truthy batch). -/
inductive CycleInput where
  | donationsFail
  | donationsOk (found : Bool)
  | bodyRaise (afterReset : Bool)
deriving DecidableEq

/-- Error-counter update of one monitor cycle, collecter.py lines 156-187:
an exception increments consecutive_errors; on reaching 5 the loop sleeps the
5-second cooldown and resets the counter; a cycle with a truthy batch resets
it; a swallowed fetch failure leaves it unchanged. The Bool reports whether
the cooldown pause was taken in this cycle. -/
def monitorErrStep (errs : Nat) (i : CycleInput) : Nat × Bool :=
  match i with
  | .donationsFail => (errs, false)
  | .donationsOk _ => (0, false)
  | .bodyRaise afterReset =>
    let e := (if afterReset then 0 else errs) + 1
    if 5 ≤ e then (0, true) else (e, false)

/-- Iterated error-counter dynamics over a sequence of cycles; the Bool
accumulates whether any cooldown pause ever occurred. -/
def monitorErrRun (errs : Nat) (is : List CycleInput) : Nat × Bool :=
  is.foldl (fun st i =>
    let r := monitorErrStep st.1 i
    (r.1, st.2 || r.2)) (errs, false)

/-- Possible states of the donations.json backing file when
load_existing_data runs (collecter.py lines 19-28, github_collector.py lines
18-27, identical code): absent; present but the open/read raises an OSError
other than FileNotFoundError; present but json.load raises JSONDecodeError;
or present with some decoded JSON value. -/
inductive FileState where
  | absent
  | readError
  | badSyntax
  | content (j : Json)

/-- Python expression needle in v for a decoded JSON value v: key test on a
dict, substring test on a string, element-equality test on a list, TypeError
otherwise. -/
def pyContainsStr (needle : String) : Json → Except Unit Bool
  | .obj kvs => .ok (kvs.any (fun kv => kv.1 == needle))
  | .str s => .ok (decide (needle.toList <:+: s.toList))
  | .arr xs => .ok (xs.contains (Json.str needle))
  | _ => .error ()

/-- One element of the set comprehension in load_existing_data:
donation.get('id') for donation if 'id' in donation. Returns none when the
element is filtered out, and raises (AttributeError) when the filter passed
but the element is not a dict. -/
def idOfElem (v : Json) : Except Unit (Option Json) := do
  let kept ← pyContainsStr "id" v
  if kept then
    match v with
    | .obj kvs => .ok (some ((RawEntry.mk kvs).get "id"))
    | _ => .error ()
  else .ok none

/-- Python-hashable JSON values: lists and dicts are unhashable and raise
TypeError when added to a set. -/
def hashable : Json → Bool
  | .arr _ => false
  | .obj _ => false
  | _ => true

/-- Insertion into the known-id set, keeping the model list duplicate-free. -/
def insertKnown (x : Json) (s : List Json) : List Json :=
  if x ∈ s then s else s ++ [x]

/-- Evaluation of the set comprehension over the successive elements the
iteration yields. -/
def collectIds : List Json → List Json → Except Unit (List Json)
  | [], acc => .ok acc
  | v :: vs, acc => do
    match (← idOfElem v) with
    | none => collectIds vs acc
    | some x => if hashable x then collectIds vs (insertKnown x acc) else .error ()

/-- load_existing_data: with the file absent, os.path.exists is false and the
initial empty set stands; a JSONDecodeError (or FileNotFoundError) is caught
and yields the empty set; any other exception — an OS-level read error, or a
TypeError/AttributeError from iterating a decoded value of the wrong shape —
propagates out. Iterating a decoded dict yields its keys, iterating a string
yields its one-character substrings, and iterating a number/bool/None raises
TypeError. -/
def load_existing_data : FileState → Except Unit (List Json)
  | .absent => .ok []
  | .readError => .error ()
  | .badSyntax => .ok []
  | .content j =>
    match j with
    | .arr xs => collectIds xs []
    | .obj kvs => collectIds (kvs.map (fun kv => Json.str kv.1)) []
    | .str s => collectIds (s.toList.map (fun c => Json.str (String.mk [c]))) []
    | _ => .error ()

/-- Repeated ingestion through the collecter.py path starting from an empty
ledger and empty known-id set, threading the in-memory set and the file
content through successive save_new_donations calls. -/
def runMonitorBatches (bs : List (List RawEntry)) :
    List Json × List DonationRecord :=
  bs.foldl (fun st b =>
    let r := save_new_donations st.1 st.2 b
    (r.known, r.ledger)) ([], [])

/-- Repeated ingestion through the github_collector.py path starting from an
empty ledger and empty known-id set; each batch carries its own wall-clock
reading for the recorded_at stamp. -/
def runGHBatches (bs : List (String × List RawEntry)) :
    List Json × List DonationRecord :=
  bs.foldl (fun st b =>
    let r := update_donations b.1 st.1 st.2 b.2
    (r.known, r.ledger)) ([], [])

/-- Erasure of the wall-clock-dependent recorded_at stamp, used to compare
the two collectors' merge outputs field-for-field on everything the clock
cannot influence. -/
def eraseRec (r : DonationRecord) : DonationRecord :=
  { r with recorded_at := none }

/-- Invariant tying the in-memory known-id set to the persisted ledger: every
ledger record's id is known, and no two ledger records share an id. -/
def LedgerInv (known : List Json) (ledger : List DonationRecord) : Prop :=
  (∀ r ∈ ledger, r.id ∈ known) ∧ (ledger.map (fun r => r.id)).Nodup

/-- Concrete raw donation payloads used by the closed theorems below. -/
def entryA : RawEntry :=
  ⟨[("id", Json.str "a"), ("completed_at", Json.str "2024-01-01T00:00:00Z"),
    ("amount", Json.num 5)]⟩

/-- Second payload carrying the same id "a" as entryA but different fields. -/
def entryA2 : RawEntry :=
  ⟨[("id", Json.str "a"), ("completed_at", Json.str "2024-01-01")]⟩

/-- Payload with id "b" and a later completion timestamp. -/
def entryB : RawEntry :=
  ⟨[("id", Json.str "b"), ("completed_at", Json.str "2024-01-02")]⟩

/-- Payload with an id but no completed_at field at all. -/
def entryNoTs : RawEntry :=
  ⟨[("id", Json.str "x")]⟩

theorem ingestLoop_spec (proj : RawEntry → DonationRecord)
    (hproj : ∀ d, (proj d).id = d.get "id") :
    ∀ (batch : List RawEntry) (known : List Json) (n e : List DonationRecord),
    ∃ extra : List DonationRecord,
      ingestLoop proj batch known n e =
        (known ++ extra.map (fun r => r.id), n ++ extra, e ++ extra) ∧
      (extra.map (fun r => r.id)).Nodup ∧
      ∀ x ∈ extra.map (fun r => r.id), x ∉ known ∧ x.truthy = true := by
  intro batch
  induction batch with
  | nil =>
    intro known n e
    exact ⟨[], by simp [ingestLoop], by simp, by simp⟩
  | cons d rest ih =>
    intro known n e
    by_cases h : (d.get "id").truthy = true ∧ d.get "id" ∉ known
    · obtain ⟨extra, heq, hnd, hfresh⟩ :=
        ih (known ++ [d.get "id"]) (n ++ [proj d]) (e ++ [proj d])
      refine ⟨proj d :: extra, ?_, ?_, ?_⟩
      · rw [show ingestLoop proj (d :: rest) known n e =
            ingestLoop proj rest (known ++ [d.get "id"]) (n ++ [proj d]) (e ++ [proj d]) by
          simp [ingestLoop, if_pos h]]
        rw [heq]
        simp [hproj, List.append_assoc]
      · simp only [List.map_cons, List.nodup_cons]
        constructor
        · intro hmem
          exact ((hfresh _ hmem).1) (by simp [hproj])
        · exact hnd
      · intro x hx
        rcases List.mem_cons.mp hx with hx | hx
        · subst hx
          simp only [hproj]
          exact ⟨h.2, h.1⟩
        · have := hfresh x hx
          refine ⟨fun hk => this.1 ?_, this.2⟩
          simp [hk]
    · obtain ⟨extra, heq, hnd, hfresh⟩ := ih known n e
      refine ⟨extra, ?_, hnd, hfresh⟩
      rw [show ingestLoop proj (d :: rest) known n e =
          ingestLoop proj rest known n e by simp [ingestLoop, if_neg h]]
      exact heq

theorem ingestLoop_noop (proj : RawEntry → DonationRecord) :
    ∀ (batch : List RawEntry) (known : List Json) (n e : List DonationRecord),
    (∀ d ∈ batch, (d.get "id").truthy = true → d.get "id" ∈ known) →
    ingestLoop proj batch known n e = (known, n, e) := by
  intro batch
  induction batch with
  | nil => intro known n e _; simp [ingestLoop]
  | cons d rest ih =>
    intro known n e hall
    have h : ¬((d.get "id").truthy = true ∧ d.get "id" ∉ known) := by
      rintro ⟨h1, h2⟩
      exact h2 (hall d (List.mem_cons_self d rest) h1)
    rw [show ingestLoop proj (d :: rest) known n e =
        ingestLoop proj rest known n e by simp [ingestLoop, if_neg h]]
    exact ih known n e (fun d' hd' => hall d' (List.mem_cons_of_mem d hd'))

theorem ingestLoop_mem_known (proj : RawEntry → DonationRecord)
    (hproj : ∀ d, (proj d).id = d.get "id") :
    ∀ (batch : List RawEntry) (known : List Json) (n e : List DonationRecord),
    ∀ d ∈ batch, (d.get "id").truthy = true →
    d.get "id" ∈ (ingestLoop proj batch known n e).1 := by
  intro batch
  induction batch with
  | nil => intro known n e d hd; cases hd
  | cons d0 rest ih =>
    intro known n e d hd htr
    by_cases h : (d0.get "id").truthy = true ∧ d0.get "id" ∉ known
    · rw [show ingestLoop proj (d0 :: rest) known n e =
          ingestLoop proj rest (known ++ [d0.get "id"]) (n ++ [proj d0]) (e ++ [proj d0]) by
        simp [ingestLoop, if_pos h]]
      rcases List.mem_cons.mp hd with hd | hd
      · subst hd
        obtain ⟨extra, heq, -, -⟩ :=
          ingestLoop_spec proj hproj rest (known ++ [d.get "id"]) (n ++ [proj d]) (e ++ [proj d])
        rw [heq]
        simp
      · exact ih _ _ _ d hd htr
    · rw [show ingestLoop proj (d0 :: rest) known n e =
          ingestLoop proj rest known n e by simp [ingestLoop, if_neg h]]
      rcases List.mem_cons.mp hd with hd | hd
      · subst hd
        obtain ⟨extra, heq, -, -⟩ := ingestLoop_spec proj hproj rest known n e
        rw [heq]
        have : d.get "id" ∈ known := by
          by_contra hk
          exact h ⟨htr, hk⟩
        simp [this]
      · exact ih _ _ _ d hd htr

theorem insertDescBy_perm (lt : Json → Json → Bool) (r : DonationRecord) :
    ∀ l : List DonationRecord, (insertDescBy lt r l).Perm (r :: l) := by
  intro l
  induction l with
  | nil => simp [insertDescBy]
  | cons s rest ih =>
    by_cases h : lt (sortKey s) (sortKey r) = true
    · simp [insertDescBy, h]
    · rw [show insertDescBy lt r (s :: rest) = s :: insertDescBy lt r rest by
        simp [insertDescBy, h]]
      exact (List.Perm.cons s ih).trans (List.Perm.swap r s rest)

theorem stableSortDesc_perm (lt : Json → Json → Bool) (l : List DonationRecord) :
    (stableSortDesc lt l).Perm l := by
  have key : ∀ (l acc : List DonationRecord),
      (l.foldl (fun acc r => insertDescBy lt r acc) acc).Perm (acc ++ l) := by
    intro l
    induction l with
    | nil => intro acc; simp
    | cons r rest ih =>
      intro acc
      have h1 := ih (insertDescBy lt r acc)
      have h2 : (insertDescBy lt r acc ++ rest).Perm ((r :: acc) ++ rest) :=
        (insertDescBy_perm lt r acc).append_right rest
      have h3 : ((r :: acc) ++ rest).Perm (acc ++ r :: rest) := by
        simpa using List.perm_middle.symm
      exact (h1.trans h2).trans h3
  simpa [stableSortDesc] using key l []

theorem sortDonations_perm {l l' : List DonationRecord}
    (h : sortDonations l = .ok l') : l'.Perm l := by
  unfold sortDonations at h
  split at h
  · cases h; exact List.Perm.refl l
  · split at h
    · split at h
      · cases h; exact stableSortDesc_perm _ l
      · cases h
    · cases h

theorem LedgerInv_extend (ks : List Json) {known : List Json}
    {ledger : List DonationRecord}
    (h : LedgerInv known ledger) : LedgerInv (known ++ ks) ledger :=
  ⟨fun r hr => List.mem_append_left ks (h.1 r hr), h.2⟩

theorem LedgerInv_perm {known : List Json} {l l' : List DonationRecord}
    (hp : l.Perm l') (h : LedgerInv known l) : LedgerInv known l' := by
  refine ⟨fun r hr => h.1 r (hp.mem_iff.mpr hr), ?_⟩
  exact ((hp.map (fun r => r.id)).nodup_iff).mp h.2

theorem LedgerInv_append {known : List Json} {ledger extra : List DonationRecord}
    (hinv : LedgerInv known ledger)
    (hnd : (extra.map (fun r => r.id)).Nodup)
    (hfresh : ∀ x ∈ extra.map (fun r => r.id), x ∉ known ∧ x.truthy = true) :
    LedgerInv (known ++ extra.map (fun r => r.id)) (ledger ++ extra) := by
  constructor
  · intro r hr
    rcases List.mem_append.mp hr with hr | hr
    · exact List.mem_append_left _ (hinv.1 r hr)
    · exact List.mem_append_right _ (List.mem_map_of_mem _ hr)
  · rw [List.map_append, List.nodup_append]
    refine ⟨hinv.2, hnd, ?_⟩
    intro x hx hx'
    rcases List.mem_map.mp hx with ⟨r, hr, hrx⟩
    exact (hfresh x hx').1 (hrx ▸ hinv.1 r hr)

theorem save_new_donations_inv (known : List Json) (ledger : List DonationRecord)
    (batch : List RawEntry) (hinv : LedgerInv known ledger) :
    LedgerInv (save_new_donations known ledger batch).known
      (save_new_donations known ledger batch).ledger := by
  obtain ⟨extra, heq, hnd, hfresh⟩ :=
    ingestLoop_spec projectRecord (fun d => rfl) batch known [] ledger
  unfold save_new_donations
  split
  · exact hinv
  · rw [heq]
    simp only [List.nil_append]
    split
    · rename_i hemp
      have hx : extra = [] := by simpa using hemp
      subst hx
      dsimp only
      simp only [List.map_nil, List.append_nil]
      exact hinv
    · have hbig := LedgerInv_append hinv hnd hfresh
      split
      · rename_i sorted hsort
        dsimp only
        exact LedgerInv_perm (sortDonations_perm hsort).symm hbig
      · dsimp only
        exact LedgerInv_extend _ hinv

theorem update_donations_inv (now : String) (known : List Json)
    (ledger : List DonationRecord) (batch : List RawEntry)
    (hinv : LedgerInv known ledger) :
    LedgerInv (update_donations now known ledger batch).known
      (update_donations now known ledger batch).ledger := by
  obtain ⟨extra, heq, hnd, hfresh⟩ :=
    ingestLoop_spec (projectRecordGH now) (fun d => rfl) batch known [] ledger
  unfold update_donations
  split
  · exact hinv
  · rw [heq]
    simp only [List.nil_append]
    have hbig := LedgerInv_append hinv hnd hfresh
    split
    · split
      · rename_i sorted hsort
        dsimp only
        exact LedgerInv_perm (sortDonations_perm hsort).symm hbig
      · dsimp only
        exact LedgerInv_extend _ hinv
    · dsimp only
      exact LedgerInv_extend _ hinv

theorem runMonitorBatches_inv (bs : List (List RawEntry)) :
    LedgerInv (runMonitorBatches bs).1 (runMonitorBatches bs).2 := by
  have key : ∀ (bs : List (List RawEntry)) (st : List Json × List DonationRecord),
      LedgerInv st.1 st.2 →
      LedgerInv (bs.foldl (fun st b =>
        let r := save_new_donations st.1 st.2 b
        (r.known, r.ledger)) st).1
        (bs.foldl (fun st b =>
          let r := save_new_donations st.1 st.2 b
          (r.known, r.ledger)) st).2 := by
    intro bs
    induction bs with
    | nil => intro st h; exact h
    | cons b rest ih =>
      intro st h
      exact ih _ (save_new_donations_inv st.1 st.2 b h)
  exact key bs ([], []) ⟨by simp, by simp⟩

theorem runGHBatches_inv (bs : List (String × List RawEntry)) :
    LedgerInv (runGHBatches bs).1 (runGHBatches bs).2 := by
  have key : ∀ (bs : List (String × List RawEntry)) (st : List Json × List DonationRecord),
      LedgerInv st.1 st.2 →
      LedgerInv (bs.foldl (fun st b =>
        let r := update_donations b.1 st.1 st.2 b.2
        (r.known, r.ledger)) st).1
        (bs.foldl (fun st b =>
          let r := update_donations b.1 st.1 st.2 b.2
          (r.known, r.ledger)) st).2 := by
    intro bs
    induction bs with
    | nil => intro st h; exact h
    | cons b rest ih =>
      intro st h
      exact ih _ (update_donations_inv b.1 st.1 st.2 b.2 h)
  exact key bs ([], []) ⟨by simp, by simp⟩

theorem eraseRec_projGH (now : String) (d : RawEntry) :
    eraseRec (projectRecordGH now d) = projectRecord d := rfl

theorem ingestLoop_falsy (proj : RawEntry → DonationRecord) (e : RawEntry)
    (he : ¬(e.get "id").truthy = true) :
    ∀ (pre post : List RawEntry) (known : List Json) (n ex : List DonationRecord),
    ingestLoop proj (pre ++ e :: post) known n ex =
      ingestLoop proj (pre ++ post) known n ex := by
  intro pre
  induction pre with
  | nil =>
    intro post known n ex
    have h : ¬((e.get "id").truthy = true ∧ e.get "id" ∉ known) := fun hc => he hc.1
    simp [ingestLoop, if_neg h]
  | cons d rest ih =>
    intro post known n ex
    by_cases h : (d.get "id").truthy = true ∧ d.get "id" ∉ known
    · simp only [List.cons_append, ingestLoop, if_pos h]
      exact ih post _ _ _
    · simp only [List.cons_append, ingestLoop, if_neg h]
      exact ih post _ _ _

theorem save_new_donations_fields (known : List Json) (ledger : List DonationRecord)
    (batch : List RawEntry) :
    (save_new_donations known ledger batch).known =
      (ingestLoop projectRecord batch known [] ledger).1 ∧
    (save_new_donations known ledger batch).newRecords =
      (ingestLoop projectRecord batch known [] ledger).2.1 := by
  obtain ⟨extra, heq, -, -⟩ :=
    ingestLoop_spec projectRecord (fun d => rfl) batch known [] ledger
  unfold save_new_donations
  split
  · rename_i hemp
    have hb : batch = [] := by simpa using hemp
    subst hb
    exact ⟨rfl, rfl⟩
  · rw [heq]
    dsimp only
    split
    · exact ⟨rfl, rfl⟩
    · split
      · exact ⟨rfl, rfl⟩
      · exact ⟨rfl, rfl⟩

theorem update_donations_fields (now : String) (known : List Json)
    (ledger : List DonationRecord) (batch : List RawEntry) :
    (update_donations now known ledger batch).known =
      (ingestLoop (projectRecordGH now) batch known [] ledger).1 ∧
    (update_donations now known ledger batch).newRecords =
      (ingestLoop (projectRecordGH now) batch known [] ledger).2.1 := by
  obtain ⟨extra, heq, -, -⟩ :=
    ingestLoop_spec (projectRecordGH now) (fun d => rfl) batch known [] ledger
  unfold update_donations
  split
  · rename_i hemp
    have hb : batch = [] := by simpa using hemp
    subst hb
    exact ⟨rfl, rfl⟩
  · rw [heq]
    dsimp only
    split
    · split
      · exact ⟨rfl, rfl⟩
      · exact ⟨rfl, rfl⟩
    · exact ⟨rfl, rfl⟩

theorem save_new_donations_noop (known : List Json) (ledger : List DonationRecord)
    (batch : List RawEntry)
    (h : ∀ d ∈ batch, (d.get "id").truthy = true → d.get "id" ∈ known) :
    save_new_donations known ledger batch = ⟨known, ledger, [], .ok false⟩ := by
  unfold save_new_donations
  split
  · rfl
  · rw [ingestLoop_noop projectRecord batch known [] ledger h]
    rfl

theorem update_donations_noop (now : String) (known : List Json)
    (ledger : List DonationRecord) (batch : List RawEntry)
    (h : ∀ d ∈ batch, (d.get "id").truthy = true → d.get "id" ∈ known)
    (hl : ledger ≠ []) :
    update_donations now known ledger batch = ⟨known, ledger, [], .ok false⟩ := by
  unfold update_donations
  split
  · rfl
  · rw [ingestLoop_noop (projectRecordGH now) batch known [] ledger h]
    dsimp only
    rw [if_neg (by simp [hl])]

theorem map_eraseRec_sortKey {l1 l2 : List DonationRecord}
    (h : l1.map eraseRec = l2.map eraseRec) : l1.map sortKey = l2.map sortKey := by
  have k1 : l1.map sortKey = (l1.map eraseRec).map sortKey := by
    rw [List.map_map]
    exact List.map_congr_left (fun r _ => rfl)
  have k2 : l2.map sortKey = (l2.map eraseRec).map sortKey := by
    rw [List.map_map]
    exact List.map_congr_left (fun r _ => rfl)
  rw [k1, k2, h]

theorem insertDescBy_congr (lt : Json → Json → Bool) {r1 r2 : DonationRecord}
    (hr : eraseRec r1 = eraseRec r2) :
    ∀ {l1 l2 : List DonationRecord}, l1.map eraseRec = l2.map eraseRec →
    (insertDescBy lt r1 l1).map eraseRec = (insertDescBy lt r2 l2).map eraseRec := by
  have hkey : sortKey r1 = sortKey r2 := by
    have : sortKey (eraseRec r1) = sortKey (eraseRec r2) := by rw [hr]
    simpa [eraseRec, sortKey] using this
  intro l1
  induction l1 with
  | nil =>
    intro l2 h
    have : l2 = [] := by simpa using h.symm
    subst this
    simp [insertDescBy, hr]
  | cons s1 rest1 ih =>
    intro l2 h
    cases l2 with
    | nil => simp at h
    | cons s2 rest2 =>
      simp only [List.map_cons, List.cons.injEq] at h
      have hs : sortKey s1 = sortKey s2 := by
        have : sortKey (eraseRec s1) = sortKey (eraseRec s2) := by rw [h.1]
        simpa [eraseRec, sortKey] using this
      by_cases hc : lt (sortKey s1) (sortKey r1) = true
      · have hc2 : lt (sortKey s2) (sortKey r2) = true := by rw [← hs, ← hkey]; exact hc
        simp [insertDescBy, hc, hc2, hr, h.1, h.2]
      · have hc2 : ¬lt (sortKey s2) (sortKey r2) = true := by rw [← hs, ← hkey]; exact hc
        simp only [insertDescBy, if_neg hc, if_neg hc2, List.map_cons]
        exact congrArg₂ List.cons h.1 (ih h.2)

theorem stableSortDesc_congr (lt : Json → Json → Bool)
    {l1 l2 : List DonationRecord} (h : l1.map eraseRec = l2.map eraseRec) :
    (stableSortDesc lt l1).map eraseRec = (stableSortDesc lt l2).map eraseRec := by
  have key : ∀ (l1 : List DonationRecord) {l2 a1 a2 : List DonationRecord},
      l1.map eraseRec = l2.map eraseRec → a1.map eraseRec = a2.map eraseRec →
      (l1.foldl (fun acc r => insertDescBy lt r acc) a1).map eraseRec =
      (l2.foldl (fun acc r => insertDescBy lt r acc) a2).map eraseRec := by
    intro l1
    induction l1 with
    | nil =>
      intro l2 a1 a2 h ha
      have : l2 = [] := by simpa using h.symm
      subst this
      simpa using ha
    | cons r1 rest1 ih =>
      intro l2 a1 a2 h ha
      cases l2 with
      | nil => simp at h
      | cons r2 rest2 =>
        simp only [List.map_cons, List.cons.injEq] at h
        simp only [List.foldl_cons]
        exact ih h.2 (insertDescBy_congr lt h.1 ha)
  exact key l1 h rfl

theorem sortDonations_congr {l1 l2 : List DonationRecord}
    (h : l1.map eraseRec = l2.map eraseRec) :
    (sortDonations l1 = .error () ∧ sortDonations l2 = .error ()) ∨
    ∃ s1 s2, sortDonations l1 = .ok s1 ∧ sortDonations l2 = .ok s2 ∧
      s1.map eraseRec = s2.map eraseRec := by
  have hlen : l1.length = l2.length := by
    have := congrArg List.length h
    simpa using this
  have hkeys : l1.map sortKey = l2.map sortKey := map_eraseRec_sortKey h
  unfold sortDonations
  rw [hkeys, hlen]
  by_cases h1 : l2.length ≤ 1
  · rw [if_pos h1, if_pos h1]
    right
    exact ⟨l1, l2, rfl, rfl, h⟩
  · rw [if_neg h1, if_neg h1]
    rcases hg : (l2.map sortKey).head? >>= keyGroup with _ | g
    · left
      exact ⟨rfl, rfl⟩
    · dsimp only
      by_cases h2 : ((l2.map sortKey).all fun k => decide (keyGroup k = some g)) = true
      · rw [if_pos h2, if_pos h2]
        right
        exact ⟨_, _, rfl, rfl, stableSortDesc_congr (keyLt g) h⟩
      · rw [if_neg h2, if_neg h2]
        left
        exact ⟨rfl, rfl⟩

theorem ingestLoop_congr (now1 now2 : String) :
    ∀ (batch : List RawEntry) (known : List Json) {n1 n2 e1 e2 : List DonationRecord},
    n1.map eraseRec = n2.map eraseRec → e1.map eraseRec = e2.map eraseRec →
    (ingestLoop (projectRecordGH now1) batch known n1 e1).1 =
      (ingestLoop (projectRecordGH now2) batch known n2 e2).1 ∧
    (ingestLoop (projectRecordGH now1) batch known n1 e1).2.1.map eraseRec =
      (ingestLoop (projectRecordGH now2) batch known n2 e2).2.1.map eraseRec ∧
    (ingestLoop (projectRecordGH now1) batch known n1 e1).2.2.map eraseRec =
      (ingestLoop (projectRecordGH now2) batch known n2 e2).2.2.map eraseRec := by
  intro batch
  induction batch with
  | nil =>
    intro known n1 n2 e1 e2 hn he
    exact ⟨rfl, hn, he⟩
  | cons d rest ih =>
    intro known n1 n2 e1 e2 hn he
    by_cases h : (d.get "id").truthy = true ∧ d.get "id" ∉ known
    · simp only [ingestLoop, if_pos h]
      refine ih _ ?_ ?_
      · simp [hn, eraseRec_projGH]
      · simp [he, eraseRec_projGH]
    · simp only [ingestLoop, if_neg h]
      exact ih _ hn he

theorem map_eq_nil_iff {a b : Type} {f : a → b} {l1 l2 : List a}
    (h : l1.map f = l2.map f) : l1 = [] ↔ l2 = [] := by
  cases l1 <;> cases l2 <;> simp_all

theorem isEmpty_eq_of_map_eq {a b : Type} {f : a → b} {l1 l2 : List a}
    (h : l1.map f = l2.map f) : l1.isEmpty = l2.isEmpty := by
  cases l1 <;> cases l2 <;> simp_all

theorem ingestLoop_filter_of_known (proj : RawEntry → DonationRecord)
    (hproj : ∀ d, (proj d).id = d.get "id") (x : Json) :
    ∀ (batch : List RawEntry) (known : List Json) (n e : List DonationRecord),
    x ∈ known →
    ((ingestLoop proj batch known n e).2.1).filter (fun r => decide (r.id = x)) =
      n.filter (fun r => decide (r.id = x)) := by
  intro batch
  induction batch with
  | nil => intro known n e _; simp [ingestLoop]
  | cons d rest ih =>
    intro known n e hx
    by_cases h : (d.get "id").truthy = true ∧ d.get "id" ∉ known
    · rw [show ingestLoop proj (d :: rest) known n e =
          ingestLoop proj rest (known ++ [d.get "id"]) (n ++ [proj d]) (e ++ [proj d]) by
        simp [ingestLoop, if_pos h]]
      rw [ih _ _ _ (List.mem_append_left _ hx)]
      have hne : ¬((proj d).id = x) := by
        rw [hproj]
        intro hc
        exact h.2 (hc ▸ hx)
      simp [List.filter_append, hne]
    · rw [show ingestLoop proj (d :: rest) known n e =
          ingestLoop proj rest known n e by simp [ingestLoop, if_neg h]]
      exact ih _ _ _ hx

theorem ingestLoop_filter_first (proj : RawEntry → DonationRecord)
    (hproj : ∀ d, (proj d).id = d.get "id") (x : Json) :
    ∀ (batch : List RawEntry) (known : List Json) (n e : List DonationRecord)
      (d0 : RawEntry),
    x.truthy = true → x ∉ known →
    batch.find? (fun d => decide (d.get "id" = x)) = some d0 →
    ((ingestLoop proj batch known n e).2.1).filter (fun r => decide (r.id = x)) =
      n.filter (fun r => decide (r.id = x)) ++ [proj d0] := by
  intro batch
  induction batch with
  | nil => intro known n e d0 _ _ hfind; simp [List.find?] at hfind
  | cons d rest ih =>
    intro known n e d0 htr hxk hfind
    by_cases hd : d.get "id" = x
    · have hstep : List.find? (fun d => decide (d.get "id" = x)) (d :: rest) = some d := by
        simp [List.find?, hd]
      rw [hstep] at hfind
      have hd0 : d0 = d := by injection hfind with h0; exact h0.symm
      subst hd0
      have h : (d0.get "id").truthy = true ∧ d0.get "id" ∉ known := by
        rw [hd]; exact ⟨htr, hxk⟩
      rw [show ingestLoop proj (d0 :: rest) known n e =
          ingestLoop proj rest (known ++ [d0.get "id"]) (n ++ [proj d0]) (e ++ [proj d0]) by
        simp [ingestLoop, if_pos h]]
      rw [ingestLoop_filter_of_known proj hproj x rest _ _ _
        (by rw [← hd]; exact List.mem_append_right _ (List.mem_singleton_self _))]
      have hpx : (proj d0).id = x := by rw [hproj, hd]
      simp [List.filter_append, hpx]
    · have hstep : List.find? (fun d => decide (d.get "id" = x)) (d :: rest) =
          List.find? (fun d => decide (d.get "id" = x)) rest := by
        simp [List.find?, hd]
      rw [hstep] at hfind
      by_cases h : (d.get "id").truthy = true ∧ d.get "id" ∉ known
      · rw [show ingestLoop proj (d :: rest) known n e =
            ingestLoop proj rest (known ++ [d.get "id"]) (n ++ [proj d]) (e ++ [proj d]) by
          simp [ingestLoop, if_pos h]]
        have hxk2 : x ∉ known ++ [d.get "id"] := by
          intro hc
          rcases List.mem_append.mp hc with hc | hc
          · exact hxk hc
          · rw [List.mem_singleton] at hc
            exact hd (hc ▸ rfl)
        rw [ih _ _ _ d0 htr hxk2 hfind]
        have hne : ¬((proj d).id = x) := by rw [hproj]; exact hd
        simp [List.filter_append, hne]
      · rw [show ingestLoop proj (d :: rest) known n e =
            ingestLoop proj rest known n e by simp [ingestLoop, if_neg h]]
        exact ih _ _ _ d0 htr hxk hfind

theorem save_new_donations_ledger (known : List Json) (ledger : List DonationRecord)
    (batch : List RawEntry) :
    (save_new_donations known ledger batch).ledger =
      (if ((ingestLoop projectRecord batch known [] ledger).2.1).isEmpty then ledger
       else
        match sortDonations (ingestLoop projectRecord batch known [] ledger).2.2 with
        | .ok sorted => sorted
        | .error _ => ledger) := by
  unfold save_new_donations
  split
  · rename_i hemp
    have hb : batch = [] := by simpa using hemp
    subst hb
    rfl
  · dsimp only
    split
    · rfl
    · split <;> rfl

theorem update_donations_ledger (now : String) (known : List Json)
    (ledger : List DonationRecord) (batch : List RawEntry) :
    (update_donations now known ledger batch).ledger =
      (if ((ingestLoop (projectRecordGH now) batch known [] ledger).2.1).isEmpty = false ∨
          ((ingestLoop (projectRecordGH now) batch known [] ledger).2.2).isEmpty then
        match sortDonations (ingestLoop (projectRecordGH now) batch known [] ledger).2.2 with
        | .ok sorted => sorted
        | .error _ => ledger
       else ledger) := by
  unfold update_donations
  split
  · rename_i hemp
    have hb : batch = [] := by simpa using hemp
    subst hb
    show ledger = _
    cases ledger with
    | nil => simp [ingestLoop, sortDonations]
    | cons r rest => simp [ingestLoop]
  · dsimp only
    split
    · split <;> rfl
    · rfl

theorem save_new_donations_outcome (known : List Json) (ledger : List DonationRecord)
    (batch : List RawEntry) :
    (save_new_donations known ledger batch).outcome =
      (if batch.isEmpty then .ok false
       else if ((ingestLoop projectRecord batch known [] ledger).2.1).isEmpty then .ok false
       else
        match sortDonations (ingestLoop projectRecord batch known [] ledger).2.2 with
        | .ok _ => .ok true
        | .error _ => IngestOutcome.raised) := by
  unfold save_new_donations
  split
  · rfl
  · dsimp only
    split
    · rfl
    · split <;> rfl

theorem update_donations_outcome (now : String) (known : List Json)
    (ledger : List DonationRecord) (batch : List RawEntry) :
    (update_donations now known ledger batch).outcome =
      (if batch.isEmpty then .ok false
       else if ((ingestLoop (projectRecordGH now) batch known [] ledger).2.1).isEmpty = false ∨
          ((ingestLoop (projectRecordGH now) batch known [] ledger).2.2).isEmpty then
        match sortDonations (ingestLoop (projectRecordGH now) batch known [] ledger).2.2 with
        | .ok _ => .ok true
        | .error _ => IngestOutcome.raised
       else .ok false) := by
  unfold update_donations
  split
  · rfl
  · dsimp only
    split
    · split <;> rfl
    · rfl

/-- C3 (confirmed): for every sequence of raw batches fed through repeated
ingest calls starting from an empty ledger and empty known-id set — through
either collector variant — the resulting donations file never contains two
records with the same id. -/
theorem C3_no_duplicate_ids (bs : List (List RawEntry))
    (bs2 : List (String × List RawEntry)) :
    ((runMonitorBatches bs).2.map (fun r => r.id)).Nodup ∧
    ((runGHBatches bs2).2.map (fun r => r.id)).Nodup :=
  ⟨(runMonitorBatches_inv bs).2, (runGHBatches_inv bs2).2⟩

/-- C9 (confirmed): an entry whose id is Python-falsy — None, "", 0, and the
other falsy values — contributes nothing to either collector: deleting it
from the batch leaves the known-id set, the persisted ledger, and the list of
newly added records unchanged. -/
theorem C9_falsy_id_skipped (now : String) (known : List Json)
    (ledger : List DonationRecord) (pre post : List RawEntry) (e : RawEntry)
    (he : ¬(e.get "id").truthy = true) :
    ((save_new_donations known ledger (pre ++ e :: post)).known =
       (save_new_donations known ledger (pre ++ post)).known ∧
     (save_new_donations known ledger (pre ++ e :: post)).ledger =
       (save_new_donations known ledger (pre ++ post)).ledger ∧
     (save_new_donations known ledger (pre ++ e :: post)).newRecords =
       (save_new_donations known ledger (pre ++ post)).newRecords) ∧
    ((update_donations now known ledger (pre ++ e :: post)).known =
       (update_donations now known ledger (pre ++ post)).known ∧
     (update_donations now known ledger (pre ++ e :: post)).ledger =
       (update_donations now known ledger (pre ++ post)).ledger ∧
     (update_donations now known ledger (pre ++ e :: post)).newRecords =
       (update_donations now known ledger (pre ++ post)).newRecords) := by
  have hlc := ingestLoop_falsy projectRecord e he pre post known [] ledger
  have hlg := ingestLoop_falsy (projectRecordGH now) e he pre post known [] ledger
  refine ⟨⟨?_, ?_, ?_⟩, ⟨?_, ?_, ?_⟩⟩
  · rw [(save_new_donations_fields known ledger (pre ++ e :: post)).1,
      (save_new_donations_fields known ledger (pre ++ post)).1, hlc]
  · rw [save_new_donations_ledger known ledger (pre ++ e :: post),
      save_new_donations_ledger known ledger (pre ++ post), hlc]
  · rw [(save_new_donations_fields known ledger (pre ++ e :: post)).2,
      (save_new_donations_fields known ledger (pre ++ post)).2, hlc]
  · rw [(update_donations_fields now known ledger (pre ++ e :: post)).1,
      (update_donations_fields now known ledger (pre ++ post)).1, hlg]
  · rw [update_donations_ledger now known ledger (pre ++ e :: post),
      update_donations_ledger now known ledger (pre ++ post), hlg]
  · rw [(update_donations_fields now known ledger (pre ++ e :: post)).2,
      (update_donations_fields now known ledger (pre ++ post)).2, hlg]

/-- C9 witness: a concrete falsy-id payload (id "") inserted before a normal
payload leaves the resulting ledger unchanged, and the hypothesis holds for
both the empty string and 0. -/
theorem C9_falsy_id_skipped_witness :
    (¬((RawEntry.mk [("id", Json.str "")]).get "id").truthy = true) ∧
    (¬((RawEntry.mk [("id", Json.num 0)]).get "id").truthy = true) ∧
    (save_new_donations [] []
        ([] ++ RawEntry.mk [("id", Json.str "")] :: [entryA])).ledger =
      (save_new_donations [] [] ([] ++ [entryA])).ledger :=
  ⟨by decide, by decide,
    ((C9_falsy_id_skipped "t" [] [] [] [entryA] ⟨[("id", Json.str "")]⟩
      (by decide)).1).2.1⟩

/-- C10 (confirmed): when a batch contains one or more entries bearing the
same previously unknown truthy id x, exactly one record with id x is appended
— the projection of the first occurrence in batch order — in both collector
variants. -/
theorem C10_within_batch_dedup (now : String) (known : List Json)
    (ledger : List DonationRecord) (batch : List RawEntry) (x : Json)
    (d0 : RawEntry) (hx : x.truthy = true) (hxk : x ∉ known)
    (hfind : batch.find? (fun d => decide (d.get "id" = x)) = some d0) :
    (save_new_donations known ledger batch).newRecords.filter
      (fun r => decide (r.id = x)) = [projectRecord d0] ∧
    (update_donations now known ledger batch).newRecords.filter
      (fun r => decide (r.id = x)) = [projectRecordGH now d0] := by
  constructor
  · rw [(save_new_donations_fields known ledger batch).2]
    have h := ingestLoop_filter_first projectRecord (fun d => rfl) x batch known
      [] ledger d0 hx hxk hfind
    simpa using h
  · rw [(update_donations_fields now known ledger batch).2]
    have h := ingestLoop_filter_first (projectRecordGH now) (fun d => rfl) x batch
      known [] ledger d0 hx hxk hfind
    simpa using h

/-- C10 witness: a batch with two entries of id "a" yields exactly the first
occurrence's record. -/
theorem C10_within_batch_dedup_witness :
    (save_new_donations [] [] [entryA, entryA2]).newRecords.filter
      (fun r => decide (r.id = Json.str "a")) = [projectRecord entryA] :=
  (C10_within_batch_dedup "t" [] [] [entryA, entryA2] (Json.str "a") entryA
    (by decide) (by decide) (by decide)).1

/-- C4 counterexample: with the github_collector variant, an empty ledger and
a non-empty batch whose only entry carries an already-known id, ingest is not
a no-op: it reports changed = true (and rewrites the file), both on the first
and on the second application. -/
theorem C4_counterexample :
    (∀ d ∈ [entryA], d.get "id" ∈ [Json.str "a"]) ∧
    (update_donations "t" [Json.str "a"] [] [entryA]).outcome = .ok true ∧
    (update_donations "t" (update_donations "t" [Json.str "a"] [] [entryA]).known
        (update_donations "t" [Json.str "a"] [] [entryA]).ledger
        [entryA]).outcome = .ok true := by
  refine ⟨by decide, by decide, by decide⟩

/-- C4 (amended): a batch of already-known ids is a complete no-op — changed
false, state untouched, no save — for the collecter.py variant always, and for
the github_collector variant whenever the existing ledger is non-empty (with
an empty ledger that variant rewrites the file and reports changed = true);
re-ingesting the same batch a second time is a no-op for collecter.py always
and for github_collector whenever the first call left a non-empty ledger. -/
theorem C4_amended_noop_idempotence (now : String) (known : List Json)
    (ledger : List DonationRecord) (batch : List RawEntry) :
    ((∀ d ∈ batch, d.get "id" ∈ known) →
      save_new_donations known ledger batch = ⟨known, ledger, [], .ok false⟩) ∧
    ((∀ d ∈ batch, d.get "id" ∈ known) → ledger ≠ [] →
      update_donations now known ledger batch = ⟨known, ledger, [], .ok false⟩) ∧
    (save_new_donations (save_new_donations known ledger batch).known
        (save_new_donations known ledger batch).ledger batch =
      ⟨(save_new_donations known ledger batch).known,
        (save_new_donations known ledger batch).ledger, [], .ok false⟩) ∧
    ((update_donations now known ledger batch).ledger ≠ [] →
      update_donations now (update_donations now known ledger batch).known
        (update_donations now known ledger batch).ledger batch =
      ⟨(update_donations now known ledger batch).known,
        (update_donations now known ledger batch).ledger, [], .ok false⟩) := by
  refine ⟨?_, ?_, ?_, ?_⟩
  · intro hall
    exact save_new_donations_noop known ledger batch
      (fun d hd _ => hall d hd)
  · intro hall hl
    exact update_donations_noop now known ledger batch
      (fun d hd _ => hall d hd) hl
  · refine save_new_donations_noop _ _ _ ?_
    intro d hd htr
    rw [(save_new_donations_fields known ledger batch).1]
    exact ingestLoop_mem_known projectRecord (fun d => rfl) batch known [] ledger d hd htr
  · intro hl
    refine update_donations_noop now _ _ _ ?_ hl
    intro d hd htr
    rw [(update_donations_fields now known ledger batch).1]
    exact ingestLoop_mem_known (projectRecordGH now) (fun d => rfl) batch known []
      ledger d hd htr

/-- C4 witness: a concrete all-known batch against a non-empty ledger is a
no-op in both variants. -/
theorem C4_amended_noop_idempotence_witness :
    save_new_donations [Json.str "a"] [projectRecord entryA] [entryA] =
      ⟨[Json.str "a"], [projectRecord entryA], [], .ok false⟩ ∧
    update_donations "t" [Json.str "a"] [projectRecord entryA] [entryA] =
      ⟨[Json.str "a"], [projectRecord entryA], [], .ok false⟩ := by
  have h := C4_amended_noop_idempotence "t" [Json.str "a"] [projectRecord entryA]
    [entryA]
  exact ⟨h.1 (by decide), h.2.1 (by decide) (by decide)⟩

/-- C5 counterexample: the github_collector merge is not independent of the
wall clock — the same (ledger, knownIds, batch) ingested at two different
times yields different ledgers, differing in the recorded_at stamp. -/
theorem C5_counterexample :
    (update_donations "t1" [] [] [entryA]).ledger ≠
      (update_donations "t2" [] [] [entryA]).ledger := by decide

/-- C5 (amended): the collecter.py merge is a pure function of
(ledger, knownIds, batch); the github_collector merge is a pure function of
(ledger, knownIds, batch, clock) and is deterministic given the clock, and two
runs at different clock readings agree on the known-id set, the changed flag
and exception behaviour, and agree on the ledger and new-record lists on every
field except the recorded_at stamp. -/
theorem C5_amended_determinism (now1 now2 : String) (known : List Json)
    (ledger : List DonationRecord) (batch : List RawEntry) :
    (update_donations now1 known ledger batch).known =
      (update_donations now2 known ledger batch).known ∧
    (update_donations now1 known ledger batch).outcome =
      (update_donations now2 known ledger batch).outcome ∧
    (update_donations now1 known ledger batch).ledger.map eraseRec =
      (update_donations now2 known ledger batch).ledger.map eraseRec ∧
    (update_donations now1 known ledger batch).newRecords.map eraseRec =
      (update_donations now2 known ledger batch).newRecords.map eraseRec := by
  obtain ⟨hk, hn, he⟩ := @ingestLoop_congr now1 now2 batch known [] [] ledger ledger
    rfl rfl
  have hn1 : (ingestLoop (projectRecordGH now1) batch known [] ledger).2.1.isEmpty =
      (ingestLoop (projectRecordGH now2) batch known [] ledger).2.1.isEmpty :=
    isEmpty_eq_of_map_eq hn
  have he1 : (ingestLoop (projectRecordGH now1) batch known [] ledger).2.2.isEmpty =
      (ingestLoop (projectRecordGH now2) batch known [] ledger).2.2.isEmpty :=
    isEmpty_eq_of_map_eq he
  refine ⟨?_, ?_, ?_, ?_⟩
  · rw [(update_donations_fields now1 known ledger batch).1,
      (update_donations_fields now2 known ledger batch).1, hk]
  · rw [update_donations_outcome now1 known ledger batch,
      update_donations_outcome now2 known ledger batch, hn1, he1]
    by_cases hb : batch.isEmpty = true
    · rw [if_pos hb, if_pos hb]
    · rw [if_neg hb, if_neg hb]
      by_cases hc : (ingestLoop (projectRecordGH now2) batch known [] ledger).2.1.isEmpty
          = false ∨
          (ingestLoop (projectRecordGH now2) batch known [] ledger).2.2.isEmpty = true
      · rw [if_pos hc, if_pos hc]
        rcases sortDonations_congr he with ⟨h1, h2⟩ | ⟨s1, s2, h1, h2, hs⟩
        · rw [h1, h2]
        · rw [h1, h2]
      · rw [if_neg hc, if_neg hc]
  · rw [update_donations_ledger now1 known ledger batch,
      update_donations_ledger now2 known ledger batch, hn1, he1]
    by_cases hc : (ingestLoop (projectRecordGH now2) batch known [] ledger).2.1.isEmpty
        = false ∨
        (ingestLoop (projectRecordGH now2) batch known [] ledger).2.2.isEmpty = true
    · rw [if_pos hc, if_pos hc]
      rcases sortDonations_congr he with ⟨h1, h2⟩ | ⟨s1, s2, h1, h2, hs⟩
      · rw [h1, h2]
      · rw [h1, h2]
        exact hs
    · rw [if_neg hc, if_neg hc]
  · rw [(update_donations_fields now1 known ledger batch).2,
      (update_donations_fields now2 known ledger batch).2, hn]

/-- C1 counterexample: in a github_collector run_update cycle the ingest
phase reports changed = false (batch of known ids, non-empty ledger), yet the
cycle appends a total-raised sample the moment the total fetch succeeds —
refuting the double gate for that variant. -/
theorem C1_counterexample :
    (update_donations "t" [Json.str "a"] [projectRecord entryA] [entryA]).outcome =
      .ok false ∧
    (run_update [Json.str "a"] [projectRecord entryA] [] (some [entryA])
        (some ⟨[("total_raised", Json.num 500)]⟩) "t" 9 "lu").totFile =
      [⟨500, 9, "lu"⟩] := by
  exact ⟨by decide, by decide⟩

theorem exceptBind_ok {e a b : Type} (x : a) (f : a → Except e b) :
    (Except.ok x >>= f) = f x := rfl

/-- C1 (amended): the double gate holds for the continuous monitor
(collecter.py): with ingestionChanged = false the total phase appends nothing
whatever the fetched total; with ingestionChanged = true and a truthy numeric
payload a sample is appended exactly when last_total is unset or the fresh
reading differs from it, and suppressed when it equals it. The single-shot
github_collector run_update instead appends on every successful total fetch
regardless of ingestionChanged. -/
theorem C1_amended_snapshot_gating (last_total : Option Int)
    (series : List MonSample) (total_data : Option RawEntry) (td : RawEntry)
    (ts : Int) (cur : Int)
    (hpf : pyFloat (td.getD "total_raised" (Json.num 0)) = .ok cur) :
    monitorTotalPhase last_total series false total_data ts =
      .ok (last_total, series) ∧
    (td.kvs ≠ [] → (last_total = none ∨ some cur ≠ last_total) →
      monitorTotalPhase last_total series true (some td) ts =
        .ok (some cur, series ++ [⟨cur, ts⟩])) ∧
    monitorTotalPhase (some cur) series true (some td) ts =
      .ok (some cur, series) := by
  refine ⟨?_, ?_, ?_⟩
  · rcases total_data with _ | td0
    · rfl
    · unfold monitorTotalPhase
      try dsimp only
      by_cases hkvs : td0.kvs.isEmpty = true
      · rw [if_pos hkvs]
      · rw [if_neg hkvs]
        rw [if_neg (by simp)]
  · intro htd hgate
    unfold monitorTotalPhase
    try dsimp only
    rw [if_neg (by simpa using htd)]
    rw [if_pos rfl]
    rw [hpf, exceptBind_ok]
    try dsimp only
    rw [if_pos hgate]
    unfold save_total_raised_update
    rw [hpf, exceptBind_ok]
    try dsimp only
    rw [exceptBind_ok]
  · unfold monitorTotalPhase
    try dsimp only
    by_cases hkvs : td.kvs.isEmpty = true
    · rw [if_pos hkvs]
    · rw [if_neg hkvs]
      rw [if_pos rfl]
      rw [hpf, exceptBind_ok]
      try dsimp only
      rw [if_neg (by simp)]

/-- C1 witness: the spec's own scenarios — fresh total 10 with last unset and
new donations appends a sample and sets last to 10; equal fresh and last with
new donations appends nothing; no new donations appends nothing. -/
theorem C1_amended_snapshot_gating_witness :
    monitorTotalPhase none [] false (some ⟨[("total_raised", Json.num 10)]⟩) 3 =
      .ok (none, []) ∧
    monitorTotalPhase none [] true (some ⟨[("total_raised", Json.num 10)]⟩) 3 =
      .ok (some 10, [⟨10, 3⟩]) ∧
    monitorTotalPhase (some 10) [] true (some ⟨[("total_raised", Json.num 10)]⟩) 3 =
      .ok (some 10, []) := by
  have h := C1_amended_snapshot_gating none [] (some ⟨[("total_raised", Json.num 10)]⟩)
    ⟨[("total_raised", Json.num 10)]⟩ 3 10 (by decide)
  exact ⟨h.1, h.2.1 (by decide) (by decide), h.2.2⟩

/-- C2 counterexample: the collecter.py saveTotals path has no retention cap —
appending to a series that already holds 100 samples persists 101. -/
theorem C2_counterexample :
    save_total_raised_update (List.replicate 100 (MonSample.mk 1 0))
      ⟨[("total_raised", Json.num 2)]⟩ 7 =
      Except.ok (List.replicate 100 (MonSample.mk 1 0) ++ [MonSample.mk 2 7]) ∧
    (List.replicate 100 (MonSample.mk 1 0) ++ [MonSample.mk 2 7]).length = 101 := by
  exact ⟨by decide, by decide⟩

theorem exceptBind_error {e a b : Type} (x : e) (f : a → Except e b) :
    ((Except.error x : Except e a) >>= f) = Except.error x := rfl

/-- C2 (amended): the retention cap holds for the github_collector saveTotals
(update_total_raised): whenever it writes, the persisted series has at most
100 entries and is a suffix of the old series plus the new sample — only the
oldest, front entries are dropped. The collecter.py variant appends without
truncation. -/
theorem C2_amended_retention_cap (series : List GHSample) (td : RawEntry)
    (ts : Int) (lu : String) (s2 : List GHSample)
    (h : update_total_raised series (some td) ts lu = .ok (s2, true)) :
    s2.length ≤ 100 ∧ ∃ smp, s2 <:+ series ++ [smp] := by
  unfold update_total_raised at h
  have h1 : (if td.kvs.isEmpty = true then Except.ok (series, false)
      else do
        let amount ← pyFloat (td.getD "total_raised" (Json.num 0))
        Except.ok (truncate100
          (series ++ [⟨amount, ts, lu⟩]), true) :
      Except Unit (List GHSample × Bool)) = Except.ok (s2, true) := h
  clear h
  rename' h1 => h
  split at h
  · simp at h
  · rcases hpf : pyFloat (td.getD "total_raised" (Json.num 0)) with u | amount
    · rw [hpf, exceptBind_error] at h
      cases h
    · rw [hpf, exceptBind_ok] at h
      have h2 : truncate100 (series ++ [⟨amount, ts, lu⟩]) = s2 := by
        have := Except.ok.inj h
        exact congrArg Prod.fst this
      subst h2
      constructor
      · unfold truncate100
        split
        · rw [List.length_drop]
          omega
        · rename_i h100
          simp only [not_lt] at h100
          exact h100
      · refine ⟨⟨amount, ts, lu⟩, ?_⟩
        unfold truncate100
        split
        · exact List.drop_suffix _ _
        · exact List.suffix_refl _

/-- C2 witness: a concrete write through the capped variant. -/
theorem C2_amended_retention_cap_witness :
    ([GHSample.mk 5 1 "t"] : List GHSample).length ≤ 100 ∧
    ∃ smp, ([GHSample.mk 5 1 "t"] : List GHSample) <:+
      ([] : List GHSample) ++ [smp] :=
  C2_amended_retention_cap [] ⟨[("total_raised", Json.num 5)]⟩ 1 "t"
    [GHSample.mk 5 1 "t"] (by decide)

/-- C6 counterexample: one hundred consecutive transient fetch failures leave
the consecutive-error counter at zero and never trigger the cooldown pause —
they are swallowed as None by get_donations, never raising inside the cycle,
so they neither escalate to the pause nor abort. -/
theorem C6_counterexample :
    monitorErrRun 0 (List.replicate 100 CycleInput.donationsFail) = (0, false) := by
  decide

/-- C6 (amended): within one monitor cycle, an exception raised before the
reset increments the counter and, on reaching 5, sleeps the cooldown and
resets to zero; an exception after the reset leaves the counter at 1; a cycle
with a truthy donations payload resets the counter to zero; a cycle whose
donations fetch failed (or returned a falsy payload) leaves the counter
unchanged and never pauses. -/
theorem C6_amended_error_counter (errs : Nat) (found : Bool) :
    monitorErrStep errs .donationsFail = (errs, false) ∧
    monitorErrStep errs (.donationsOk found) = (0, false) ∧
    monitorErrStep errs (.bodyRaise false) =
      (if 5 ≤ errs + 1 then (0, true) else (errs + 1, false)) ∧
    monitorErrStep errs (.bodyRaise true) = (1, false) :=
  ⟨rfl, rfl, rfl, rfl⟩

/-- C7 counterexample: load_existing_data does not soft-fail every bad state:
a present file holding valid JSON of a non-iterable shape (the number 5)
raises TypeError, and an OS-level read error other than FileNotFoundError
propagates — both escape the except clause, which catches only
JSONDecodeError and FileNotFoundError. -/
theorem C7_counterexample :
    load_existing_data (.content (Json.num 5)) = .error () ∧
    load_existing_data .readError = .error () :=
  ⟨rfl, rfl⟩

/-- C7 (amended): the soft-fail guarantee covers an absent file and a present
file whose content json.load cannot parse — both yield an empty known-id
index without raising — and an ordinary array-of-objects file loads its ids;
a read error or parseable content of the wrong shape propagates instead. -/
theorem C7_amended_soft_fail :
    load_existing_data .absent = .ok [] ∧
    load_existing_data .badSyntax = .ok [] ∧
    load_existing_data (.content (Json.arr [Json.obj [("id", Json.str "a")],
      Json.obj [("id", Json.str "b"), ("amount", Json.num 2)]])) =
      .ok [Json.str "a", Json.str "b"] := by
  exact ⟨rfl, rfl, by decide⟩

/-- C8 (code bug): a record projected from a payload without completed_at
stores null under the key, so the sort key is None — the '' default of
x.get('completed_at', '') never applies — and Python 3's sort raises
TypeError when that key meets a string key: at this input the cycle raises
instead of sorting the missing-timestamp record last, and the file is left
unwritten. -/
theorem C8_missing_timestamp_sort_raises :
    (projectRecord entryNoTs).completed_at = Json.null ∧
    (save_new_donations [] [] [entryNoTs, entryB]).outcome = .raised ∧
    (save_new_donations [] [] [entryNoTs, entryB]).ledger = [] := by
  exact ⟨by decide, by decide, by decide⟩

end TeamWater